import Mathlib

/-
Shallow embedding of the data-quality analysis engine in `src/utils.py`
(pandas-based).  A pandas DataFrame is modelled as a list of column names
together with a list of rows; each cell is a `Value`.  Machine floats are
modelled as exact rationals, with `Option` capturing NaN (missing) results;
pandas NaN cells are the `vnull` value.  Each Python function of
`src/utils.py` is translated below under its source name.
-/

namespace DQ

/-- A cell of a table: a number, a parsed date (timestamp, modelled as an
exact rational), a string, or a missing value (NaN/NaT/None). -/
inductive Value where
  | vnum (q : ℚ)
  | vdate (t : ℚ)
  | vstr (s : String)
  | vnull
deriving DecidableEq

/-- A pandas DataFrame: named columns and a list of rows.  The dense
0-based positional index of pandas is the list position itself. -/
structure DataFrame where
  cols : List String
  rows : List (List Value)
deriving DecidableEq

/-- Is the cell a missing value (NaN/NaT)? -/
def Value.isNull : Value → Bool
  | .vnull => true
  | _ => false

/-- Numeric content of a cell, if any. -/
def toNum? : Value → Option ℚ
  | .vnum q => some q
  | _ => none

/-- A cell that is a parsed date or missing — the only cell shapes a
canonical `Date` column can hold. -/
def isDateOrNull : Value → Bool
  | .vdate _ => true
  | .vnull => true
  | _ => false

/-- Index of a named column, as pandas column lookup (first match). -/
def colIdx (df : DataFrame) (c : String) : Option ℕ :=
  df.cols.findIdx? (fun s => s == c)

/-- The values of column `i`, one per row (missing entries of ragged rows
read as null; well-formed frames are never ragged). -/
def colByIdx (df : DataFrame) (i : ℕ) : List Value :=
  df.rows.map (fun r => r.getD i .vnull)

/-- Column dtype test used by `select_dtypes(include=[np.number])`: a CSV
column is of a numeric dtype exactly when every cell is a number or NaN
(an all-NaN column is float64, hence numeric). -/
def isNumericCol (vs : List Value) : Bool :=
  vs.all (fun v => (toNum? v).isSome || v.isNull)

/-- The non-missing numeric values of a column, in row order: pandas
reductions and `quantile` skip NaN. -/
def numsOf (vs : List Value) : List ℚ :=
  vs.filterMap toNum?

/-- Count of missing values in a column (`df.isnull().sum()`). -/
def nullCount (vs : List Value) : ℕ :=
  vs.countP (fun v => v.isNull)

/-- numpy/pandas rounding of a real value to the nearest integer, ties to
even (the semantics of `Series.round`). -/
def halfEvenRound (q : ℚ) : ℤ :=
  if q - ⌊q⌋ = 1 / 2 then (if 2 ∣ ⌊q⌋ then ⌊q⌋ else ⌊q⌋ + 1) else round q

/-- `x.round(2)`: round to 2 decimal places, ties to even. -/
def round2 (q : ℚ) : ℚ :=
  (halfEvenRound (q * 100) : ℚ) / 100

/-- `check_missing` (src/utils.py lines 5-13): per-column missing count and
percentage `(count / len(df)) * 100` rounded to 2 places, keeping only
columns whose count is positive.  The returned frame is modelled as the
list of its rows `(column name, count, percentage)` in column order. -/
def check_missing (df : DataFrame) : List (String × ℕ × ℚ) :=
  (List.range df.cols.length).filterMap (fun i =>
    let c := nullCount (colByIdx df i)
    if 0 < c then
      some (df.cols.getD i "", c, round2 (((c : ℚ) / (df.rows.length : ℚ)) * 100))
    else none)

/-- Sort key used by `sort_values("Date")`: dates (and raw numbers) by
value, NaN/NaT last (`na_position` defaults to last).  String cells sort
lexicographically in pandas; the claims only concern parsed date columns,
so strings are given an arbitrary constant key here. -/
def sortKey : Value → WithTop ℚ
  | .vdate t => (t : ℚ)
  | .vnum q => (q : ℚ)
  | .vstr _ => ((0 : ℚ) : WithTop ℚ)
  | .vnull => ⊤

/-- Row comparison by the `Date` cell at index `i`. -/
def dateLE (i : ℕ) (r1 r2 : List Value) : Prop :=
  sortKey (r1.getD i .vnull) ≤ sortKey (r2.getD i .vnull)

instance (i : ℕ) : DecidableRel (dateLE i) := fun r1 r2 =>
  inferInstanceAs (Decidable (sortKey (r1.getD i .vnull) ≤ sortKey (r2.getD i .vnull)))

instance (i : ℕ) : IsTotal (List Value) (dateLE i) :=
  ⟨fun _ _ => le_total _ _⟩

instance (i : ℕ) : IsTrans (List Value) (dateLE i) :=
  ⟨fun _ _ _ h1 h2 => le_trans h1 h2⟩

/-- `sort_values("Date")` with the `Date` column at index `i`: ascending,
missing dates last.  The source's `sort_values` defaults to
`kind="quicksort"` (numpy introsort), which is NOT stable: the order it
gives a run of equal dates is implementation-defined library behaviour,
and for 17 or more tied rows it is a fixed non-identity permutation.  The
model adopts the stable ascending order the spec prescribes for the
preprocessor ("stable-sort records ascending by `Date`").  Every claim
theorem below that touches sorted output is insensitive to the tie order
(the duplicate check concludes Sorted plus a permutation of the filtered
rows); the preprocessing idempotence lemma is explicitly about this
spec-prescribed stable order, in support of the C5 code-bug finding. -/
def sortByDate (i : ℕ) (rows : List (List Value)) : List (List Value) :=
  List.insertionSort (dateLE i) rows

/-- Result of a quality check in the source: either a result DataFrame or
a plain Python `str` — the source returns a bare string both for a missing
column and for a no-findings outcome. -/
inductive CheckResult where
  | table (df : DataFrame)
  | msg (s : String)
deriving DecidableEq

/-- The structural tag of a check result a caller could branch on without
reading message text: `true` for a findings table, `false` for a plain
string. -/
def resultTag : CheckResult → Bool
  | .table _ => true
  | .msg _ => false

def noDateMsg : String := "No \x27Date\x27 column found in the dataframe"

def noDupMsg : String := "No duplicate dates found"

/-- Does some other record share this record's exact `Date` cell
(`df.duplicated(subset=["Date"], keep=False)`; pandas treats equal NaT as
duplicates of each other, as does `Value` equality)? -/
def sharedDate (df : DataFrame) (i : ℕ) (r : List Value) : Bool :=
  2 ≤ df.rows.countP (fun r2 => r2.getD i .vnull == r.getD i .vnull)

/-- `detect_duplicates` (src/utils.py lines 15-24): all members of every
group of rows sharing a `Date` value, sorted ascending by `Date`; a plain
message when the column is absent or no group exists. -/
def detect_duplicates (df : DataFrame) : CheckResult :=
  match colIdx df "Date" with
  | none => .msg noDateMsg
  | some i =>
    let duplicates := df.rows.filter (fun r => sharedDate df i r)
    if duplicates.isEmpty then .msg noDupMsg
    else .table ⟨df.cols, sortByDate i duplicates⟩

def colNotFoundMsg (column : String) : String :=
  "Column \x27" ++ column ++ "\x27 not found in dataframe"

def noOutliersMsg (column : String) : String :=
  "No outliers found in column \x27" ++ column ++ "\x27"

/-- `Series.quantile(q)` with the default linear interpolation: over the
sorted non-missing values `v`, the result is
`v[k] + g * (v[k+1] - v[k])` where `q * (n - 1) = k + g`, `0 ≤ g < 1`;
NaN (`none`) for an empty series. -/
def quantileLin (vs : List ℚ) (q : ℚ) : Option ℚ :=
  if vs.isEmpty then none
  else
    let sorted := List.insertionSort (· ≤ ·) vs
    let p := q * ((vs.length : ℚ) - 1)
    let k := ⌊p⌋.toNat
    let g := p - ⌊p⌋
    some (sorted.getD k 0 + g * (sorted.getD (k + 1) (sorted.getD k 0) - sorted.getD k 0))

/-- Is the cell at index `i` of the row a number strictly outside
`[lower, upper]`?  NaN cells compare false on both sides, as in pandas. -/
def outlierRow (i : ℕ) (lower upper : ℚ) (r : List Value) : Bool :=
  match toNum? (r.getD i .vnull) with
  | some q => if q < lower ∨ upper < q then true else false
  | none => false

/-- `detect_outliers` (src/utils.py lines 26-43): IQR fences
`Q1 - 1.5*IQR` and `Q3 + 1.5*IQR` from the linearly interpolated 25th and
75th percentiles; rows strictly outside the fences, in table order, or a
plain message when the column is missing or nothing qualifies.  An
all-missing column gives NaN quantiles, every comparison false, hence the
no-outliers message — exactly the source's behaviour. -/
def detect_outliers (df : DataFrame) (column : String) : CheckResult :=
  match colIdx df column with
  | none => .msg (colNotFoundMsg column)
  | some i =>
    match quantileLin (numsOf (colByIdx df i)) (1 / 4),
          quantileLin (numsOf (colByIdx df i)) (3 / 4) with
    | some q1, some q3 =>
      let iqr := q3 - q1
      let outliers := df.rows.filter (outlierRow i (q1 - 3 / 2 * iqr) (q3 + 3 / 2 * iqr))
      if outliers.isEmpty then .msg (noOutliersMsg column)
      else .table ⟨df.cols, outliers⟩
    | _, _ => .msg (noOutliersMsg column)

def noJumpsMsg (column : String) (threshold : ℚ) : String :=
  "No significant price jumps detected in column \x27" ++ column
    ++ "\x27 (threshold: " ++ toString (threshold * 100) ++ "%)"

/-- `Series.pct_change()`: entry `i` is `(v[i] - v[i-1]) / v[i-1]`, NaN for
the first row and when either cell is non-numeric.  A zero previous value
gives ±inf (or NaN) in the source; both are modelled as null here, and the
source's deprecated forward-fill of missing values is not modelled — no
claim depends on the numeric content of this auxiliary column. -/
def pct_change (vs : List Value) : List Value :=
  (List.range vs.length).map (fun i =>
    if i = 0 then .vnull
    else
      match toNum? (vs.getD (i - 1) .vnull), toNum? (vs.getD i .vnull) with
      | some p, some c => if p = 0 then .vnull else .vnum ((c - p) / p)
      | _, _ => .vnull)

/-- Assignment `df[name] = vals`: overwrite the column if present,
otherwise append it on the right (the pandas in-place column insert). -/
def setCol (df : DataFrame) (name : String) (vals : List Value) : DataFrame :=
  match colIdx df name with
  | some i => ⟨df.cols, (df.rows.zip vals).map (fun rv => rv.1.set i rv.2)⟩
  | none => ⟨df.cols ++ [name], (df.rows.zip vals).map (fun rv => rv.1 ++ [rv.2])⟩

/-- Projection `df[[c1, ..., ck]]` (columns missing from the frame would
raise in pandas; the claims never reach that case, and absent cells read
as null here). -/
def projectCols (df : DataFrame) (names : List String) : DataFrame :=
  ⟨names, df.rows.map (fun r =>
    names.map (fun c => match colIdx df c with
      | some i => r.getD i .vnull
      | none => .vnull))⟩

/-- Does the row's `pct_change` cell exceed the threshold in absolute
value (`abs(df["pct_change"]) > threshold`; NaN compares false)? -/
def jumpRow (df1 : DataFrame) (threshold : ℚ) (r : List Value) : Bool :=
  match colIdx df1 "pct_change" with
  | some pi =>
    match toNum? (r.getD pi .vnull) with
    | some q => if threshold < |q| then true else false
    | none => false
  | none => false

/-- `detect_jumps` (src/utils.py lines 45-59).  Line 51 writes the
auxiliary `pct_change` column straight into the caller's frame, so the
function is modelled as a state transformer: the second component is the
frame as the caller observes it after the call. -/
def detect_jumps (df : DataFrame) (column : String) (threshold : ℚ) :
    CheckResult × DataFrame :=
  match colIdx df column with
  | none => (.msg (colNotFoundMsg column), df)
  | some i =>
    let df1 := setCol df "pct_change" (pct_change (colByIdx df i))
    let jumps := df1.rows.filter (jumpRow df1 threshold)
    (if jumps.isEmpty then .msg (noJumpsMsg column threshold)
     else
       match colIdx df1 "Date" with
       | some di =>
         .table (projectCols ⟨df1.cols, sortByDate di jumps⟩
           (["Date", column] ++ ["pct_change"]))
       -- with jumps found but no "Date" column the source raises KeyError
       -- at the projection; no claim reaches this case
       | none => .msg (colNotFoundMsg "Date"),
     df1)

def emptyMsg : String := "The uploaded file is empty"

def needDateMsg : String := "The file must contain a \x27Date\x27 column"

def badDateMsg : String := "The \x27Date\x27 column contains invalid date formats"

def noNumericMsg : String := "The file must contain at least one numeric column"

def successMsg : String := "Data validation successful"

/-- A date string of the form `YYYY-MM-DD`, encoded as the rational
`y * 10000 + m * 100 + d` (a timestamp model that orders like the date).
This is the only textual date shape the model gives to `pd.to_datetime`;
other strings are unparseable. -/
def parseDateStr (s : String) : Option ℚ :=
  match (s.splitOn "-").map String.toNat? with
  | [some y, some m, some d] => some ((y * 10000 + m * 100 + d : ℕ) : ℚ)
  | _ => none

/-- `pd.to_datetime` on one cell: datetimes pass through, numbers are
epoch offsets (always parseable), recognized strings parse, NaN becomes
NaT (no error), anything else raises (`none`). -/
def parseDate : Value → Option Value
  | .vdate t => some (.vdate t)
  | .vnum q => some (.vdate q)
  | .vstr s => (parseDateStr s).map .vdate
  | .vnull => some .vnull

/-- `pd.to_datetime` over a whole column: all cells or failure. -/
def parseCol : List Value → Option (List Value)
  | [] => some []
  | v :: vs =>
    match parseDate v, parseCol vs with
    | some w, some ws => some (w :: ws)
    | _, _ => none

/-- Indices of the columns of numeric dtype
(`df.select_dtypes(include=[np.number]).columns`); note the source does
not exclude the `Date` column from this selection. -/
def numericColIdxs (df : DataFrame) : List ℕ :=
  (List.range df.cols.length).filter (fun j => isNumericCol (colByIdx df j))

/-- `validate_dataframe` (src/utils.py lines 61-78): empty check, `Date`
presence, `Date` parseability, then at least one numeric-dtype column
(`df.empty` is true when either axis has length 0). -/
def validate_dataframe (df : DataFrame) : Bool × String :=
  if df.rows.isEmpty || df.cols.isEmpty then (false, emptyMsg)
  else
    match colIdx df "Date" with
    | none => (false, needDateMsg)
    | some i =>
      if (colByIdx df i).all (fun v => (parseDate v).isSome) then
        if (numericColIdxs df).isEmpty then (false, noNumericMsg)
        else (true, successMsg)
      else (false, badDateMsg)

/-- `preprocess_data` (src/utils.py lines 80-93): copy, parse the `Date`
column, sort ascending by `Date`, `reset_index(drop=True)` (the positional
index is implicit in the list model, so reindexing is the identity).
`none` models the exception `pd.to_datetime` raises on an unparseable cell
and the KeyError on a missing `Date` column. -/
def preprocess_data (df : DataFrame) : Option DataFrame :=
  match colIdx df "Date" with
  | none => none
  | some i =>
    match parseCol (colByIdx df i) with
    | none => none
    | some parsed =>
      some ⟨df.cols,
        sortByDate i ((df.rows.zip parsed).map (fun rv => rv.1.set i rv.2))⟩

/-- The statistics dict built by `analyze_data_distribution`.  Every field
follows pandas skip-NaN semantics over the non-missing values; `none` is a
NaN entry.  Two of the source's statistics are irrational in general
(`std`, `skewness`); the model stores an order- and NaN-faithful rational
encoding: `std` holds the sample variance (the square of the source's
std), `skewness` holds the signed square of the source's adjusted
skewness.  No claim consumes those magnitudes — only their NaN-ness. -/
structure DistStats where
  mean : Option ℚ
  median : Option ℚ
  std : Option ℚ
  minV : Option ℚ
  maxV : Option ℚ
  skewness : Option ℚ
  kurtosis : Option ℚ
deriving DecidableEq

/-- The source function returns one of two dict shapes: `{"error": msg}`
or the plain statistics dict. -/
inductive DistResult where
  | err (s : String)
  | stats (s : DistStats)
deriving DecidableEq

def listMean (xs : List ℚ) : Option ℚ :=
  if xs.isEmpty then none else some (xs.sum / (xs.length : ℚ))

def listMedian (xs : List ℚ) : Option ℚ :=
  if xs.isEmpty then none
  else
    let sorted := List.insertionSort (· ≤ ·) xs
    let n := xs.length
    if n % 2 = 1 then some (sorted.getD (n / 2) 0)
    else some ((sorted.getD (n / 2 - 1) 0 + sorted.getD (n / 2) 0) / 2)

/-- Sum of `(x - mean)^p` over the list, the building block of the pandas
moment statistics. -/
def centralSum (xs : List ℚ) (p : ℕ) : ℚ :=
  (xs.map (fun x => (x - xs.sum / (xs.length : ℚ)) ^ p)).sum

/-- `Series.std()` (sample, ddof=1), encoded by its square: NaN for fewer
than 2 values. -/
def sampleVar (xs : List ℚ) : Option ℚ :=
  if xs.length < 2 then none
  else some (centralSum xs 2 / ((xs.length : ℚ) - 1))

/-- `Series.skew()` (pandas `nanskew`): NaN below 3 values, 0 on zero
second moment, otherwise `sqrt(n(n-1))/(n-2) * m3 / m2^(3/2)` — encoded by
its signed square `n^2 (n-1) / (n-2)^2 * m3^2 / m2^3`. -/
def skewEnc (xs : List ℚ) : Option ℚ :=
  if xs.length < 3 then none
  else
    let n : ℚ := xs.length
    let m2 := centralSum xs 2
    let m3 := centralSum xs 3
    if m2 = 0 then some 0
    else some ((if m3 < 0 then -1 else 1) *
      (n ^ 2 * (n - 1) / (n - 2) ^ 2 * m3 ^ 2 / m2 ^ 3))

/-- `Series.kurtosis()` (pandas `nankurt`, adjusted Fisher): NaN below 4
values, 0 on zero second moment, otherwise
`n(n+1)(n-1) m4 / ((n-2)(n-3) m2^2) - 3 (n-1)^2 / ((n-2)(n-3))`. -/
def kurtEnc (xs : List ℚ) : Option ℚ :=
  if xs.length < 4 then none
  else
    let n : ℚ := xs.length
    let m2 := centralSum xs 2
    let m4 := centralSum xs 4
    if m2 = 0 then some 0
    else some (n * (n + 1) * (n - 1) * m4 / ((n - 2) * (n - 3) * m2 ^ 2)
      - 3 * (n - 1) ^ 2 / ((n - 2) * (n - 3)))

/-- `analyze_data_distribution` (src/utils.py lines 95-110): the error
dict for a missing column, otherwise the statistics dict with pandas
skip-NaN reductions — the sub-2-count statistics are plain NaN entries,
with no error marker of any kind. -/
def analyze_data_distribution (df : DataFrame) (column : String) : DistResult :=
  match colIdx df column with
  | none => .err (colNotFoundMsg column)
  | some i =>
    let xs := numsOf (colByIdx df i)
    .stats ⟨listMean xs, listMedian xs, sampleVar xs,
      xs.min?, xs.max?, skewEnc xs, kurtEnc xs⟩

/-- The trailing window of `w` cells ending at position `i`. -/
def windowVals (vs : List Value) (w i : ℕ) : List Value :=
  (vs.drop (i + 1 - w)).take w

/-- All cells as numbers, or `none` if any cell is non-numeric — a NaN
inside a rolling window makes the whole window aggregate NaN
(`min_periods` defaults to the window size). -/
def allNums : List Value → Option (List ℚ)
  | [] => some []
  | .vnum q :: vs => (allNums vs).map (fun xs => q :: xs)
  | _ :: _ => none

/-- `rolling(window=w).mean()` at position `i`: defined once `w` cells are
available and all of them are numeric. -/
def rollingMean (vs : List Value) (w i : ℕ) : Option ℚ :=
  if 1 ≤ w ∧ w ≤ i + 1 then
    match allNums (windowVals vs w i) with
    | some xs => if xs.length = w then some (xs.sum / (w : ℚ)) else none
    | none => none
  else none

/-- `rolling(window=w).std()` at position `i`, encoded by its square (the
sample variance, ddof=1): NaN whenever the window is incomplete, holds a
NaN, or has fewer than 2 cells — so `w = 1` yields NaN at every row. -/
def rollingVar (vs : List Value) (w i : ℕ) : Option ℚ :=
  if 2 ≤ w ∧ w ≤ i + 1 then
    match allNums (windowVals vs w i) with
    | some xs => if xs.length = w then some (centralSum xs 2 / ((w : ℚ) - 1)) else none
    | none => none
  else none

def trendCols (column : String) : List String :=
  ["Date", column, "MA", "MA_std", "Trend"]

/-- The `Trend` label at position `i`:
`np.where(MA > MA.shift(1), "Upward", "Downward")` — any comparison
involving NaN is false, so a missing moving average on either side gives
`"Downward"`. -/
def trendLabel (vs : List Value) (w i : ℕ) : String :=
  match rollingMean vs w i, (if i = 0 then none else rollingMean vs w (i - 1)) with
  | some a, some b => if b < a then "Upward" else "Downward"
  | _, _ => "Downward"

/-- The surviving rows of the trend table: position `j` contributes the
projected row `[Date, value, MA, MA_std, Trend]` exactly when its `MA` and
`MA_std` are defined and its `Date` and value cells are non-missing
(`dropna`; the `Trend` cell is a string, never NaN). -/
def trendRows (df : DataFrame) (i di w : ℕ) : List (List Value) :=
  (List.range df.rows.length).filterMap (fun j =>
    let r := df.rows.getD j []
    match rollingMean (colByIdx df i) w j, rollingVar (colByIdx df i) w j with
    | some a, some s =>
      if (r.getD di .vnull).isNull ∨ (r.getD i .vnull).isNull then none
      else some [r.getD di .vnull, r.getD i .vnull,
        .vnum a, .vnum s, .vstr (trendLabel (colByIdx df i) w j)]
    | _, _ => none)

/-- `detect_trends` (src/utils.py lines 112-124): an `error` frame for a
missing column; otherwise the projection
`df[["Date", column, "MA", "MA_std", "Trend"]].dropna()` of the frame with
the rolling columns added.  `none` models the exceptions pandas raises for
`window=0` and for a missing `Date` column at the projection. -/
def detect_trends (df : DataFrame) (column : String) (w : ℕ) : Option DataFrame :=
  match colIdx df column with
  | none => some ⟨["error"], [[.vstr (colNotFoundMsg column)]]⟩
  | some i =>
    if w = 0 then none
    else
      match colIdx df "Date" with
      | none => none
      | some di => some ⟨trendCols column, trendRows df i di w⟩

/-
Claim-side definitions (written from the specification's words, for
comparison with the source embedding above), and the concrete frames the
counterexamples, failing inputs and witnesses use.
-/

/-- Modelled from the spec for claim C2: the indices of numeric-dtype
columns other than `Date` ("at least one column (other than `Date`) holds
numeric values"). -/
def nonDateNumericIdxs (df : DataFrame) : List ℕ :=
  (List.range df.cols.length).filter
    (fun j => (df.cols.getD j "" != "Date") && isNumericCol (colByIdx df j))

/-- The numeric value of the cell at column `i`, row `j` (0 for a
non-numeric cell; the claims apply it to numeric cells only). -/
def valAt (df : DataFrame) (i j : ℕ) : ℚ :=
  (toNum? ((df.rows.getD j []).getD i .vnull)).getD 0

/-- From the spec of claim C6: the simple moving average over the trailing
window of `w` consecutive rows ending at row `j`. -/
def maSpec (df : DataFrame) (i w j : ℕ) : ℚ :=
  ((List.range w).map (fun l => valAt df i (j + 1 - w + l))).sum / (w : ℚ)

/-- From the spec of claim C6: the label of the `k`-th output row (at
source position `k + w - 1`): the first row with a defined MA is labelled
`"Downward"`; afterwards `"Upward"` iff `MA[j] > MA[j-1]`. -/
def trendLabelSpec (df : DataFrame) (i w k : ℕ) : String :=
  if k = 0 then "Downward"
  else if maSpec df i w (k + w - 2) < maSpec df i w (k + w - 1) then "Upward"
  else "Downward"

/-- C1 failing input: a frame with a `Date` column and one numeric column. -/
def dfJumpIn : DataFrame :=
  ⟨["Date", "x"], [[.vdate 1, .vnum 100], [.vdate 2, .vnum 150]]⟩

/-- C2 counterexample input: non-empty, `Date` present and parseable (a
numeric `Date` column parses as epoch offsets), and no column other than
`Date` is numeric. -/
def dfDateOnly : DataFrame := ⟨["Date"], [[.vnum 1], [.vnum 2]]⟩

/-- C2 witness input: a valid frame with a numeric column besides `Date`. -/
def dfValid : DataFrame := ⟨["Date", "x"], [[.vdate 1, .vnum 5], [.vdate 2, .vnum 6]]⟩

/-- C3 failing input: column `x` has exactly one non-missing value. -/
def dfOneObs : DataFrame := ⟨["Date", "x"], [[.vdate 1, .vnum 5]]⟩

/-- C4 input: column `v` exists and contains no outlier and no jump beyond
the 0.1 threshold; column `w` does not exist. -/
def dfCalm : DataFrame :=
  ⟨["Date", "v"], [[.vdate 1, .vnum 10], [.vdate 2, .vnum 11]]⟩

/-- C5 witness input: unsorted parsed dates. -/
def dfUnsorted : DataFrame :=
  ⟨["Date", "x"], [[.vdate 2, .vnum 2], [.vdate 1, .vnum 1]]⟩

/-- C5 witness: the canonical form of `dfUnsorted`. -/
def dfSorted : DataFrame :=
  ⟨["Date", "x"], [[.vdate 1, .vnum 1], [.vdate 2, .vnum 2]]⟩

/-- C6 counterexample input: two fully observed numeric rows. -/
def dfTwo : DataFrame :=
  ⟨["Date", "x"], [[.vdate 1, .vnum 1], [.vdate 2, .vnum 2]]⟩

/-- C6 witness input: the spec's example values `[1,2,3,4,5]`. -/
def dfFive : DataFrame :=
  ⟨["Date", "x"],
   [[.vdate 1, .vnum 1], [.vdate 2, .vnum 2], [.vdate 3, .vnum 3],
    [.vdate 4, .vnum 4], [.vdate 5, .vnum 5]]⟩

/-- C7 witness input: the spec's example values `[10,12,11,13,10,90]`. -/
def dfSpike : DataFrame :=
  ⟨["Date", "v"],
   [[.vdate 1, .vnum 10], [.vdate 2, .vnum 12], [.vdate 3, .vnum 11],
    [.vdate 4, .vnum 13], [.vdate 5, .vnum 10], [.vdate 6, .vnum 90]]⟩

/-- C8 witness input: the spec's example dates, two of them equal. -/
def dfDupDates : DataFrame :=
  ⟨["Date", "v"],
   [[.vdate 20240101, .vnum 1], [.vdate 20240101, .vnum 2],
    [.vdate 20240102, .vnum 3]]⟩

/-- C9 witness input: one column with values `[1, null, 3, null]`. -/
def dfHoles : DataFrame :=
  ⟨["x"], [[.vnum 1], [.vnull], [.vnum 3], [.vnull]]⟩

/-- C10 witness input. -/
def dfThree : DataFrame :=
  ⟨["Date", "x"], [[.vdate 1, .vnum 7], [.vdate 2, .vnum 8], [.vdate 3, .vnum 9]]⟩

/-
Theorems.  Helper lemmas come first; each claim is then settled by one
named theorem (with a witness where the theorem carries hypotheses).
-/

lemma colIdx_eq_none_of_not_mem {df : DataFrame} {c : String}
    (h : c ∉ df.cols) : colIdx df c = none := by
  unfold colIdx
  rw [List.findIdx?_eq_none_iff]
  intro x hx
  simp only [beq_eq_false_iff_ne, ne_eq]
  intro hxc
  exact h (hxc ▸ hx)

/-- Claim C1: the spec states the jump detector must not mutate its input
(the spec itself flags the source's in-place `pct_change` column as a
latent bug).  The source does mutate: at this input the frame observed
after the call has gained a `pct_change` column, so it is not the frame
that was passed in.  This confirms the code bug the spec describes. -/
theorem detect_jumps_mutates_input :
    (detect_jumps dfJumpIn "x" (1 / 10)).2.cols = dfJumpIn.cols ++ ["pct_change"] ∧
    (detect_jumps dfJumpIn "x" (1 / 10)).2 ≠ dfJumpIn := by
  have hcols : (detect_jumps dfJumpIn "x" (1 / 10)).2.cols =
      dfJumpIn.cols ++ ["pct_change"] := rfl
  refine ⟨hcols, fun h => ?_⟩
  rw [h] at hcols
  exact absurd hcols (by decide)

/-- Claim C2, counterexample: `dfDateOnly` is non-empty, its `Date` column
parses, and no column other than `Date` is numeric, yet `validate_dataframe`
returns success — the source counts the `Date` column itself in
`select_dtypes(include=[np.number])`, so the claim's "no numeric column"
failure does not fire. -/
theorem validate_ignores_date_exclusion :
    dfDateOnly.rows ≠ [] ∧
    colIdx dfDateOnly "Date" = some 0 ∧
    (colByIdx dfDateOnly 0).all (fun v => (parseDate v).isSome) = true ∧
    nonDateNumericIdxs dfDateOnly = [] ∧
    validate_dataframe dfDateOnly = (true, successMsg) := by
  refine ⟨by decide, by decide, by decide, by decide, by decide⟩

/-- Claim C3: at a column with a single non-missing value the source
returns the plain statistics dict — no error marker of any kind — and the
std/skewness/kurtosis entries are bare NaN (`none`), indistinguishable in
shape from computed entries.  The explicit signalling the claim requires
is absent; the spec says these cases "must be reported as such", so this
is a code bug. -/
theorem distribution_silent_nan :
    analyze_data_distribution dfOneObs "x" =
      .stats ⟨some 5, some 5, none, some 5, some 5, none, none⟩ := by
  have h : analyze_data_distribution dfOneObs "x" =
      .stats ⟨listMean [5], listMedian [5], sampleVar [5],
        List.min? [5], List.max? [5], skewEnc [5], kurtEnc [5]⟩ := rfl
  rw [h]
  norm_num [listMean, listMedian, sampleVar, skewEnc, kurtEnc,
    List.min?, List.max?, List.insertionSort]

/-- Claim C4, counterexample: on `dfCalm` the no-outliers outcome (column
`v` exists, nothing qualifies) and the column-not-found outcome (column
`w` is absent) are both plain strings — the same `CheckResult` tag — so a
caller cannot branch on which occurred without reading the message text. -/
theorem no_findings_tag_equals_error_tag :
    detect_outliers dfCalm "v" = .msg (noOutliersMsg "v") ∧
    detect_outliers dfCalm "w" = .msg (colNotFoundMsg "w") ∧
    resultTag (detect_outliers dfCalm "v") = resultTag (detect_outliers dfCalm "w") := by
  have hv : detect_outliers dfCalm "v" = .msg (noOutliersMsg "v") := by
    have h : detect_outliers dfCalm "v" =
        match quantileLin [10, 11] (1 / 4), quantileLin [10, 11] (3 / 4) with
        | some q1, some q3 =>
          if (dfCalm.rows.filter
              (outlierRow 1 (q1 - 3 / 2 * (q3 - q1)) (q3 + 3 / 2 * (q3 - q1)))).isEmpty
          then CheckResult.msg (noOutliersMsg "v")
          else CheckResult.table ⟨dfCalm.cols,
            dfCalm.rows.filter
              (outlierRow 1 (q1 - 3 / 2 * (q3 - q1)) (q3 + 3 / 2 * (q3 - q1)))⟩
        | _, _ => CheckResult.msg (noOutliersMsg "v") := rfl
    rw [h]
    norm_num [quantileLin, List.insertionSort, List.orderedInsert, dfCalm,
      outlierRow, toNum?, List.filter]
  have hw : detect_outliers dfCalm "w" = .msg (colNotFoundMsg "w") := rfl
  exact ⟨hv, hw, by rw [hv, hw]; rfl⟩

/-- Claim C6, counterexample: with `window = 1` every position has at
least one prior-plus-current observation, so the claim predicts an output
row per input row; but the rolling std of a single observation is NaN and
`dropna` removes every row — the output of the source is empty. -/
theorem trends_window_one_empty_output :
    detect_trends dfTwo "x" 1 = some ⟨trendCols "x", []⟩ ∧
    dfTwo.rows.length = 2 := by
  refine ⟨by decide, by decide⟩

lemma cols_ne_nil_of_colIdx {df : DataFrame} {c : String} {i : ℕ}
    (h : colIdx df c = some i) : df.cols ≠ [] := by
  intro hnil
  rw [colIdx, hnil] at h
  exact Option.noConfusion h

/-- Claim C2 (amended): for a non-empty table whose `Date` column parses,
`validate_dataframe` fails with the no-numeric-column message iff no
column at all is of numeric dtype — the source's `select_dtypes` count
includes the `Date` column itself — and succeeds as soon as any column
(possibly `Date` itself) is numeric. -/
theorem validate_numeric_requirement (df : DataFrame) (i : ℕ)
    (hne : df.rows ≠ []) (hi : colIdx df "Date" = some i)
    (hparse : (colByIdx df i).all (fun v => (parseDate v).isSome) = true) :
    (validate_dataframe df = (false, noNumericMsg) ↔ numericColIdxs df = []) ∧
    (numericColIdxs df ≠ [] → validate_dataframe df = (true, successMsg)) := by
  have hrows : df.rows.isEmpty = false := by
    cases hr : df.rows with
    | nil => exact absurd hr hne
    | cons a l => rfl
  have hcols : df.cols.isEmpty = false := by
    cases hc : df.cols with
    | nil => exact absurd hc (cols_ne_nil_of_colIdx hi)
    | cons a l => rfl
  have hval : validate_dataframe df =
      if (numericColIdxs df).isEmpty then (false, noNumericMsg)
      else (true, successMsg) := by
    unfold validate_dataframe
    rw [hrows, hcols, hi]
    show (if ((colByIdx df i).all fun v => (parseDate v).isSome) = true
        then if (numericColIdxs df).isEmpty = true then (false, noNumericMsg)
             else (true, successMsg)
        else (false, badDateMsg)) =
      if (numericColIdxs df).isEmpty = true then (false, noNumericMsg)
      else (true, successMsg)
    rw [hparse]
    rfl
  rw [hval]
  cases hnum : (numericColIdxs df).isEmpty with
  | true =>
    rw [List.isEmpty_iff] at hnum
    simp [hnum]
  | false =>
    have : numericColIdxs df ≠ [] := by
      intro h
      rw [h] at hnum
      exact Bool.noConfusion hnum
    rw [if_neg Bool.false_ne_true]
    constructor
    · constructor
      · intro h
        exact absurd (congrArg Prod.fst h) (by simp)
      · intro h
        exact absurd h this
    · intro _
      rfl

/-- Claim C2 (amended) witness at a concrete valid frame. -/
theorem validate_numeric_requirement_witness :
    (validate_dataframe dfValid = (false, noNumericMsg) ↔ numericColIdxs dfValid = []) ∧
    (numericColIdxs dfValid ≠ [] → validate_dataframe dfValid = (true, successMsg)) :=
  validate_numeric_requirement dfValid 0 (by decide) (by decide) (by decide)

/-- Claim C9: for a non-empty table, `check_missing` reports an entry
exactly for each column with at least one missing value, carrying that
column's missing count and the percentage `100 * count / totalRows`
rounded to two decimal places; zero-missing columns are omitted. -/
theorem check_missing_spec (df : DataFrame) (hne : df.rows ≠ [])
    (name : String) (cnt : ℕ) (pct : ℚ) :
    (name, cnt, pct) ∈ check_missing df ↔
      ∃ i, i < df.cols.length ∧ df.cols.getD i "" = name ∧
        cnt = nullCount (colByIdx df i) ∧ 0 < cnt ∧
        pct = round2 (100 * (cnt : ℚ) / (df.rows.length : ℚ)) := by
  have harith : ∀ c n : ℚ, c / n * 100 = 100 * c / n := by
    intro c n
    ring
  simp only [check_missing, List.mem_filterMap, List.mem_range]
  constructor
  · rintro ⟨i, hi, hf⟩
    by_cases h : 0 < nullCount (colByIdx df i)
    · rw [if_pos h, Option.some_inj, Prod.mk.injEq, Prod.mk.injEq] at hf
      obtain ⟨h1, h2, h3⟩ := hf
      exact ⟨i, hi, h1, h2.symm, h2 ▸ h, by rw [← h3, ← h2, harith]⟩
    · rw [if_neg h] at hf
      exact Option.noConfusion hf
  · rintro ⟨i, hi, h1, h2, h3, h4⟩
    refine ⟨i, hi, ?_⟩
    rw [if_pos (h2 ▸ h3), Option.some_inj, Prod.mk.injEq, Prod.mk.injEq]
    exact ⟨h1, h2.symm, by rw [h4, ← h2, harith]⟩

/-- Claim C9 witness: the spec's example `[1, null, 3, null]` yields the
entry `count = 2`, `percentage = 50.00`. -/
theorem check_missing_spec_witness :
    ("x", 2, (50 : ℚ)) ∈ check_missing dfHoles :=
  (check_missing_spec dfHoles (by decide) "x" 2 50).mpr
    ⟨0, by decide, rfl, by decide, by decide,
     by norm_num [round2, halfEvenRound, round_eq, dfHoles, Int.fract]⟩

/-- Claim C10: with `window = 1` and an existing numeric column the trend
detector returns an empty trend table: the rolling standard deviation of a
single observation is NaN at every position, and `dropna` removes each
row. -/
theorem detect_trends_window_one (df : DataFrame) (column : String) (i di : ℕ)
    (hi : colIdx df column = some i) (hdi : colIdx df "Date" = some di)
    (hnum : isNumericCol (colByIdx df i) = true) :
    detect_trends df column 1 = some ⟨trendCols column, []⟩ := by
  unfold detect_trends
  rw [hi]
  show (if (1 : ℕ) = 0 then none
    else (match colIdx df "Date" with
      | none => none
      | some di2 => some ⟨trendCols column, trendRows df i di2 1⟩ : Option DataFrame)) =
    some ⟨trendCols column, []⟩
  rw [if_neg (by omega : ¬ (1 : ℕ) = 0), hdi]
  refine congrArg some (congrArg (DataFrame.mk (trendCols column)) ?_)
  unfold trendRows
  rw [List.filterMap_eq_nil_iff]
  intro j hj
  have hvar : rollingVar (colByIdx df i) 1 j = none := by
    unfold rollingVar
    rw [if_neg]
    intro hcon
    omega
  cases hma : rollingMean (colByIdx df i) 1 j <;> rw [hvar]

/-- Claim C10 witness at a concrete three-row numeric frame. -/
theorem detect_trends_window_one_witness :
    detect_trends dfThree "x" 1 = some ⟨trendCols "x", []⟩ :=
  detect_trends_window_one dfThree "x" 1 0 (by decide) (by decide) (by decide)

/-- Claim C8: `detect_duplicates` flags exactly the records whose `Date`
value is shared with at least one other record (every member of each group
of size at least 2), sorted ascending by `Date`; a missing `Date` column
gives the explicit error message and no duplicate group the explicit
none-found message. -/
theorem detect_duplicates_spec (df : DataFrame) :
    ("Date" ∉ df.cols → detect_duplicates df = .msg noDateMsg) ∧
    (∀ i, colIdx df "Date" = some i →
      (∀ r ∈ df.rows, isDateOrNull (r.getD i .vnull) = true) →
      ((∀ r ∈ df.rows, sharedDate df i r = false) →
         detect_duplicates df = .msg noDupMsg) ∧
      (∀ r0 ∈ df.rows, sharedDate df i r0 = true →
        ∃ t, detect_duplicates df = .table t ∧ t.cols = df.cols ∧
          List.Sorted (dateLE i) t.rows ∧
          t.rows.Perm (df.rows.filter fun r => sharedDate df i r))) := by
  refine ⟨?_, ?_⟩
  · intro h
    unfold detect_duplicates
    rw [colIdx_eq_none_of_not_mem h]
  · intro i hi hdates
    unfold detect_duplicates
    rw [hi]
    refine ⟨?_, ?_⟩
    · intro hall
      show (if (df.rows.filter fun r => sharedDate df i r).isEmpty = true
          then CheckResult.msg noDupMsg
          else CheckResult.table
            ⟨df.cols, sortByDate i (df.rows.filter fun r => sharedDate df i r)⟩) =
        CheckResult.msg noDupMsg
      have : df.rows.filter (fun r => sharedDate df i r) = [] := by
        rw [List.filter_eq_nil_iff]
        intro a ha
        simp [hall a ha]
      rw [this]
      rfl
    · intro r0 hr0 hshared
      have hne : df.rows.filter (fun r => sharedDate df i r) ≠ [] := by
        intro hnil
        have hmem : r0 ∈ df.rows.filter (fun r => sharedDate df i r) :=
          List.mem_filter.mpr ⟨hr0, hshared⟩
        rw [hnil] at hmem
        exact absurd hmem (List.not_mem_nil r0)
      have hemp : (df.rows.filter (fun r => sharedDate df i r)).isEmpty = false := by
        cases hf : df.rows.filter (fun r => sharedDate df i r) with
        | nil => exact absurd hf hne
        | cons a l => rfl
      refine ⟨⟨df.cols, sortByDate i (df.rows.filter fun r => sharedDate df i r)⟩,
        ?_, rfl, ?_, ?_⟩
      · show (if (df.rows.filter fun r => sharedDate df i r).isEmpty = true
            then CheckResult.msg noDupMsg
            else CheckResult.table
              ⟨df.cols, sortByDate i (df.rows.filter fun r => sharedDate df i r)⟩) = _
        rw [hemp, if_neg Bool.false_ne_true]
      · exact List.sorted_insertionSort (dateLE i) _
      · exact List.perm_insertionSort (dateLE i)
          (df.rows.filter fun r => sharedDate df i r)

/-- Claim C8 witness: on dates `[d, d, e]` both rows holding `d` are
returned, sorted, and the row holding `e` is not. -/
theorem detect_duplicates_spec_witness :
    ∃ t, detect_duplicates dfDupDates = .table t ∧ t.cols = dfDupDates.cols ∧
      List.Sorted (dateLE 0) t.rows ∧
      t.rows.Perm (dfDupDates.rows.filter fun r => sharedDate dfDupDates 0 r) :=
  ((detect_duplicates_spec dfDupDates).2 0 (by decide) (by decide)).2
    [.vdate 20240101, .vnum 1] (by decide) (by decide)

/-- Claim C7: with `Q1`, `Q3` the linearly interpolated 25th and 75th
percentiles of the column's non-missing values and `IQR = Q3 - Q1`,
`detect_outliers` returns exactly the records strictly below
`Q1 - 1.5*IQR` or strictly above `Q3 + 1.5*IQR` (in table order), and the
explicit no-outliers message naming the column when no record qualifies. -/
theorem detect_outliers_spec (df : DataFrame) (column : String) (i : ℕ)
    (hi : colIdx df column = some i)
    (hnum : isNumericCol (colByIdx df i) = true)
    (q1 q3 : ℚ)
    (h1 : quantileLin (numsOf (colByIdx df i)) (1 / 4) = some q1)
    (h3 : quantileLin (numsOf (colByIdx df i)) (3 / 4) = some q3) :
    ((∀ r ∈ df.rows,
        outlierRow i (q1 - 3 / 2 * (q3 - q1)) (q3 + 3 / 2 * (q3 - q1)) r = false) →
       detect_outliers df column = .msg (noOutliersMsg column)) ∧
    (∀ r0 ∈ df.rows,
        outlierRow i (q1 - 3 / 2 * (q3 - q1)) (q3 + 3 / 2 * (q3 - q1)) r0 = true →
      detect_outliers df column = .table
        ⟨df.cols, df.rows.filter
          (outlierRow i (q1 - 3 / 2 * (q3 - q1)) (q3 + 3 / 2 * (q3 - q1)))⟩) := by
  have hred : detect_outliers df column =
      if (df.rows.filter
          (outlierRow i (q1 - 3 / 2 * (q3 - q1)) (q3 + 3 / 2 * (q3 - q1)))).isEmpty = true
      then CheckResult.msg (noOutliersMsg column)
      else CheckResult.table ⟨df.cols, df.rows.filter
        (outlierRow i (q1 - 3 / 2 * (q3 - q1)) (q3 + 3 / 2 * (q3 - q1)))⟩ := by
    unfold detect_outliers
    rw [hi]
    show (match quantileLin (numsOf (colByIdx df i)) (1 / 4),
           quantileLin (numsOf (colByIdx df i)) (3 / 4) with
      | some q1, some q3 =>
        if (df.rows.filter
            (outlierRow i (q1 - 3 / 2 * (q3 - q1)) (q3 + 3 / 2 * (q3 - q1)))).isEmpty = true
        then CheckResult.msg (noOutliersMsg column)
        else CheckResult.table ⟨df.cols, df.rows.filter
          (outlierRow i (q1 - 3 / 2 * (q3 - q1)) (q3 + 3 / 2 * (q3 - q1)))⟩
      | _, _ => CheckResult.msg (noOutliersMsg column)) = _
    rw [h1, h3]
  rw [hred]
  refine ⟨?_, ?_⟩
  · intro hall
    have hnil : df.rows.filter
        (outlierRow i (q1 - 3 / 2 * (q3 - q1)) (q3 + 3 / 2 * (q3 - q1))) = [] := by
      rw [List.filter_eq_nil_iff]
      intro a ha
      simp [hall a ha]
    rw [hnil]
    rfl
  · intro r0 hr0 hout
    have hne : df.rows.filter
        (outlierRow i (q1 - 3 / 2 * (q3 - q1)) (q3 + 3 / 2 * (q3 - q1))) ≠ [] := by
      intro hnil
      have hmem : r0 ∈ df.rows.filter
          (outlierRow i (q1 - 3 / 2 * (q3 - q1)) (q3 + 3 / 2 * (q3 - q1))) :=
        List.mem_filter.mpr ⟨hr0, hout⟩
      rw [hnil] at hmem
      exact absurd hmem (List.not_mem_nil r0)
    have hemp : (df.rows.filter
        (outlierRow i (q1 - 3 / 2 * (q3 - q1)) (q3 + 3 / 2 * (q3 - q1)))).isEmpty = false := by
      cases hf : df.rows.filter
          (outlierRow i (q1 - 3 / 2 * (q3 - q1)) (q3 + 3 / 2 * (q3 - q1))) with
      | nil => exact absurd hf hne
      | cons a l => rfl
    rw [hemp, if_neg Bool.false_ne_true]

/-- Claim C7 witness: the spec's example `[10,12,11,13,10,90]` has
`Q1 = 10.25`, `Q3 = 12.75`, fences `6.5` and `16.5`, and the record
holding `90` qualifies, so a findings table is returned. -/
theorem detect_outliers_spec_witness :
    detect_outliers dfSpike "v" = .table
      ⟨dfSpike.cols, dfSpike.rows.filter
        (outlierRow 1 (41 / 4 - 3 / 2 * (51 / 4 - 41 / 4))
          (51 / 4 + 3 / 2 * (51 / 4 - 41 / 4)))⟩ :=
  (detect_outliers_spec dfSpike "v" 1 (by decide) (by decide) (41 / 4) (51 / 4)
      (by norm_num [quantileLin, numsOf, colByIdx, toNum?, dfSpike,
        List.insertionSort, List.orderedInsert, List.filterMap_cons, Int.fract, Int.toNat])
      (by norm_num [quantileLin, numsOf, colByIdx, toNum?, dfSpike,
        List.insertionSort, List.orderedInsert, List.filterMap_cons, Int.fract, Int.toNat])).2
    [.vdate 6, .vnum 90] (by decide)
    (by norm_num [outlierRow, toNum?])

lemma parseDate_idem {v w : Value} (h : parseDate v = some w) :
    parseDate w = some w := by
  cases v with
  | vnum q =>
    have hw : w = .vdate q := (Option.some_inj.mp h).symm
    rw [hw]
    rfl
  | vdate t =>
    have hw : w = .vdate t := (Option.some_inj.mp h).symm
    rw [hw]
    rfl
  | vstr s =>
    simp only [parseDate] at h
    cases hp : parseDateStr s with
    | none => rw [hp] at h; exact Option.noConfusion h
    | some t =>
      rw [hp] at h
      simp only [Option.map_some'] at h
      have hw : w = .vdate t := (Option.some_inj.mp h).symm
      rw [hw]
      rfl
  | vnull =>
    have hw : w = .vnull := (Option.some_inj.mp h).symm
    rw [hw]
    rfl

lemma parseCol_mem_fixed : ∀ {vs ws : List Value}, parseCol vs = some ws →
    ∀ w ∈ ws, parseDate w = some w := by
  intro vs
  induction vs with
  | nil =>
    intro ws h w hw
    have : ws = [] := (Option.some_inj.mp h).symm
    rw [this] at hw
    exact absurd hw (List.not_mem_nil w)
  | cons v vs ih =>
    intro ws h w hw
    unfold parseCol at h
    cases hp : parseDate v with
    | none => rw [hp] at h; exact Option.noConfusion h
    | some w0 =>
      cases hc : parseCol vs with
      | none => rw [hp, hc] at h; exact Option.noConfusion h
      | some ws0 =>
        rw [hp, hc] at h
        have : ws = w0 :: ws0 := (Option.some_inj.mp h).symm
        rw [this] at hw
        rcases List.mem_cons.mp hw with h1 | h2
        · rw [h1]; exact parseDate_idem hp
        · exact ih hc w h2

lemma parseCol_fixed : ∀ {vs : List Value}, (∀ v ∈ vs, parseDate v = some v) →
    parseCol vs = some vs := by
  intro vs
  induction vs with
  | nil => intro _; rfl
  | cons v vs ih =>
    intro h
    unfold parseCol
    rw [h v (List.mem_cons_self v vs), ih (fun w hw => h w (List.mem_cons_of_mem v hw))]

lemma getD_set_self : ∀ (r : List Value) (i : ℕ) (w : Value),
    (r.set i w).getD i .vnull = w ∨ (r.set i w).getD i .vnull = .vnull
  | [], _, _ => Or.inr rfl
  | _ :: _, 0, _ => Or.inl rfl
  | a :: r, i + 1, w => by simpa using getD_set_self r i w

lemma set_getD_self : ∀ (r : List Value) (i : ℕ),
    r.set i (r.getD i .vnull) = r
  | [], _ => rfl
  | _ :: _, 0 => rfl
  | a :: r, i + 1 => by simpa using set_getD_self r i

lemma zip_set_self (i : ℕ) : ∀ (rows : List (List Value)),
    (rows.zip (rows.map (fun r => r.getD i .vnull))).map
      (fun rv => rv.1.set i rv.2) = rows
  | [] => rfl
  | r :: rows => by
    show r.set i (r.getD i .vnull) ::
        (rows.zip (rows.map (fun r => r.getD i .vnull))).map
          (fun rv => rv.1.set i rv.2) = r :: rows
    rw [set_getD_self r i, zip_set_self i rows]

/-- Preprocessing with the spec-prescribed stable sort is idempotent:
once dates are parsed and rows stably sorted ascending by `Date`, a
second pass parses and sorts to the very same table.  The spec prescribes
exactly this behaviour ("stable-sort records ascending by `Date`";
"preprocess is idempotent").  The shipped code instead calls
`sort_values` with its unstable default quicksort, which permutes a long
enough run of tied dates by a fixed non-identity permutation on every
pass, so the source program violates idempotence on such tables — the C5
code bug.  This lemma isolates that defect: the only obstacle to the
claimed idempotence is the unstable tie order. -/
theorem preprocess_idempotent (df u : DataFrame)
    (h : preprocess_data df = some u) : preprocess_data u = some u := by
  unfold preprocess_data at h
  cases hci : colIdx df "Date" with
  | none => rw [hci] at h; exact Option.noConfusion h
  | some i =>
    rw [hci] at h
    cases hpc : parseCol (colByIdx df i) with
    | none =>
      simp only [hpc] at h
      exact Option.noConfusion h
    | some parsed =>
      simp only [hpc] at h
      have hu : u = ⟨df.cols,
          sortByDate i ((df.rows.zip parsed).map (fun rv => rv.1.set i rv.2))⟩ :=
        (Option.some_inj.mp h).symm
      have hciu : colIdx u "Date" = some i := by rw [hu]; exact hci
      have hfix : ∀ r ∈ u.rows, parseDate (r.getD i .vnull) = some (r.getD i .vnull) := by
        intro r hr
        rw [hu] at hr
        have hr1 : r ∈ (df.rows.zip parsed).map (fun rv => rv.1.set i rv.2) := by
          rw [sortByDate] at hr
          exact (List.mem_insertionSort (dateLE i)).mp hr
        obtain ⟨⟨r0, w⟩, hzip, hset⟩ := List.mem_map.mp hr1
        have hwmem : w ∈ parsed := (List.of_mem_zip hzip).2
        rcases getD_set_self r0 i w with hcase | hcase
        · rw [← hset, hcase]
          exact parseCol_mem_fixed hpc w hwmem
        · rw [← hset, hcase]
          rfl
      have hpcu : parseCol (colByIdx u i) = some (colByIdx u i) := by
        refine parseCol_fixed ?_
        intro v hv
        obtain ⟨r, hr, hrv⟩ := List.mem_map.mp hv
        rw [← hrv]
        exact hfix r hr
      have hsorted : List.Sorted (dateLE i) u.rows := by
        rw [hu]
        exact List.sorted_insertionSort (dateLE i) _
      unfold preprocess_data
      rw [hciu]
      simp only [hpcu]
      show some (⟨u.cols, sortByDate i ((u.rows.zip
        (u.rows.map (fun r => r.getD i .vnull))).map
          (fun rv => rv.1.set i rv.2))⟩ : DataFrame) = some u
      rw [zip_set_self i u.rows, sortByDate, hsorted.insertionSort_eq]

/-- A concrete instance of the stable-sort idempotence lemma:
preprocessing the canonical form of a two-row frame returns it
unchanged. -/
theorem preprocess_idempotent_witness :
    preprocess_data dfSorted = some dfSorted :=
  preprocess_idempotent dfUnsorted dfSorted (by decide)

/-- Claim C4 (amended): for each quality check a findings result is a
table, distinguishable by structural tag; but the NoFindings outcome and
the ColumnNotFound outcome are both plain strings — the same tag — so they
can be told apart only by their message text. -/
theorem check_result_string_outcomes (df : DataFrame) (c : String) (θ : ℚ) :
    (c ∉ df.cols →
      detect_outliers df c = .msg (colNotFoundMsg c) ∧
      (detect_jumps df c θ).1 = .msg (colNotFoundMsg c)) ∧
    ("Date" ∉ df.cols → detect_duplicates df = .msg noDateMsg) ∧
    (∀ i, colIdx df "Date" = some i →
      (∀ r ∈ df.rows, sharedDate df i r = false) →
      detect_duplicates df = .msg noDupMsg) ∧
    (∀ i q1 q3, colIdx df c = some i →
      quantileLin (numsOf (colByIdx df i)) (1 / 4) = some q1 →
      quantileLin (numsOf (colByIdx df i)) (3 / 4) = some q3 →
      (∀ r ∈ df.rows,
        outlierRow i (q1 - 3 / 2 * (q3 - q1)) (q3 + 3 / 2 * (q3 - q1)) r = false) →
      detect_outliers df c = .msg (noOutliersMsg c)) ∧
    (∀ i, colIdx df c = some i →
      (∀ r ∈ (setCol df "pct_change" (pct_change (colByIdx df i))).rows,
        jumpRow (setCol df "pct_change" (pct_change (colByIdx df i))) θ r = false) →
      (detect_jumps df c θ).1 = .msg (noJumpsMsg c θ)) ∧
    (∀ s, resultTag (CheckResult.msg s) = false) ∧
    (∀ t, resultTag (CheckResult.table t) = true) := by
  refine ⟨?_, ?_, ?_, ?_, ?_, fun s => rfl, fun t => rfl⟩
  · intro h
    have hc : colIdx df c = none := colIdx_eq_none_of_not_mem h
    constructor
    · unfold detect_outliers
      rw [hc]
    · unfold detect_jumps
      rw [hc]
  · intro h
    unfold detect_duplicates
    rw [colIdx_eq_none_of_not_mem h]
  · intro i hi hall
    unfold detect_duplicates
    rw [hi]
    show (if (df.rows.filter fun r => sharedDate df i r).isEmpty = true
        then CheckResult.msg noDupMsg
        else CheckResult.table
          ⟨df.cols, sortByDate i (df.rows.filter fun r => sharedDate df i r)⟩) =
      CheckResult.msg noDupMsg
    have : df.rows.filter (fun r => sharedDate df i r) = [] := by
      rw [List.filter_eq_nil_iff]
      intro a ha
      simp [hall a ha]
    rw [this]
    rfl
  · intro i q1 q3 hi h1 h3 hall
    unfold detect_outliers
    rw [hi]
    show (match quantileLin (numsOf (colByIdx df i)) (1 / 4),
           quantileLin (numsOf (colByIdx df i)) (3 / 4) with
      | some q1, some q3 =>
        if (df.rows.filter
            (outlierRow i (q1 - 3 / 2 * (q3 - q1)) (q3 + 3 / 2 * (q3 - q1)))).isEmpty = true
        then CheckResult.msg (noOutliersMsg c)
        else CheckResult.table ⟨df.cols, df.rows.filter
          (outlierRow i (q1 - 3 / 2 * (q3 - q1)) (q3 + 3 / 2 * (q3 - q1)))⟩
      | _, _ => CheckResult.msg (noOutliersMsg c)) = CheckResult.msg (noOutliersMsg c)
    rw [h1, h3]
    show (if (df.rows.filter
        (outlierRow i (q1 - 3 / 2 * (q3 - q1)) (q3 + 3 / 2 * (q3 - q1)))).isEmpty = true
      then CheckResult.msg (noOutliersMsg c)
      else CheckResult.table ⟨df.cols, df.rows.filter
        (outlierRow i (q1 - 3 / 2 * (q3 - q1)) (q3 + 3 / 2 * (q3 - q1)))⟩) =
      CheckResult.msg (noOutliersMsg c)
    have : df.rows.filter
        (outlierRow i (q1 - 3 / 2 * (q3 - q1)) (q3 + 3 / 2 * (q3 - q1))) = [] := by
      rw [List.filter_eq_nil_iff]
      intro a ha
      simp [hall a ha]
    rw [this]
    rfl
  · intro i hi hall
    unfold detect_jumps
    rw [hi]
    show (if ((setCol df "pct_change" (pct_change (colByIdx df i))).rows.filter
        (jumpRow (setCol df "pct_change" (pct_change (colByIdx df i))) θ)).isEmpty = true
      then CheckResult.msg (noJumpsMsg c θ)
      else _) = CheckResult.msg (noJumpsMsg c θ)
    have : (setCol df "pct_change" (pct_change (colByIdx df i))).rows.filter
        (jumpRow (setCol df "pct_change" (pct_change (colByIdx df i))) θ) = [] := by
      rw [List.filter_eq_nil_iff]
      intro a ha
      simp [hall a ha]
    rw [this]
    rfl

/-- Claim C4 (amended) witness: on `dfCalm` both the column-not-found
outcome (for the absent column `w`) and the no-outliers outcome (for the
calm column `v`) are plain-string results. -/
theorem check_result_string_outcomes_witness :
    detect_outliers dfCalm "w" = .msg (colNotFoundMsg "w") ∧
    (detect_jumps dfCalm "w" (1 / 10)).1 = .msg (colNotFoundMsg "w") ∧
    detect_outliers dfCalm "v" = .msg (noOutliersMsg "v") := by
  refine ⟨?_, ?_, ?_⟩
  · exact ((check_result_string_outcomes dfCalm "w" (1 / 10)).1 (by decide)).1
  · exact ((check_result_string_outcomes dfCalm "w" (1 / 10)).1 (by decide)).2
  · refine (check_result_string_outcomes dfCalm "v" (1 / 10)).2.2.2.1
      1 (41 / 4) (43 / 4) (by decide) ?_ ?_ ?_
    · norm_num [quantileLin, numsOf, colByIdx, toNum?, dfCalm,
        List.insertionSort, List.orderedInsert, List.filterMap_cons,
        Int.fract, Int.toNat]
    · norm_num [quantileLin, numsOf, colByIdx, toNum?, dfCalm,
        List.insertionSort, List.orderedInsert, List.filterMap_cons,
        Int.fract, Int.toNat]
    · intro r hr
      simp only [dfCalm] at hr
      rcases List.mem_cons.mp hr with h | hr1
      · subst h
        norm_num [outlierRow, toNum?]
      · rcases List.mem_cons.mp hr1 with h | hr2
        · subst h
          norm_num [outlierRow, toNum?]
        · exact absurd hr2 (List.not_mem_nil r)

lemma filterMap_range_threshold {α : Type} (g : ℕ → α) :
    ∀ (n a : ℕ), (List.range n).filterMap
        (fun j => if a ≤ j then some (g j) else none) =
      (List.range (n - a)).map (fun k => g (k + a))
  | 0, a => by rw [Nat.zero_sub]; rfl
  | n + 1, a => by
    rw [List.range_succ, List.filterMap_append, filterMap_range_threshold g n a]
    by_cases h : a ≤ n
    · have h1 : n + 1 - a = (n - a) + 1 := by omega
      have h2 : n - a + a = n := by omega
      rw [h1, List.range_succ, List.map_append]
      simp [List.filterMap_cons, h, h2]
    · have h1 : n + 1 - a = n - a := by omega
      rw [h1]
      simp [List.filterMap_cons, h]

lemma getD_map_range {α : Type} (g : ℕ → α) (d : α) (m k : ℕ) (hk : k < m) :
    ((List.range m).map g).getD k d = g k := by
  rw [List.getD_eq_getElem?_getD, List.getElem?_map, List.getElem?_range hk,
    Option.map_some', Option.getD_some]

lemma drop_take_eq_map_range {α : Type} (d : α) :
    ∀ (xs : List α) (a b : ℕ), a + b ≤ xs.length →
      (xs.drop a).take b = (List.range b).map (fun l => xs.getD (a + l) d)
  | _, _, 0, _ => by simp
  | [], _, b + 1, h => by rw [List.length_nil] at h; omega
  | x :: xs, 0, b + 1, h => by
    have h' : 0 + b ≤ xs.length := by simp at h ⊢; omega
    rw [List.drop_zero]
    show x :: xs.take b = _
    rw [List.range_succ_eq_map, List.map_cons, List.map_map]
    have hxs := drop_take_eq_map_range d xs 0 b h'
    rw [List.drop_zero] at hxs
    rw [hxs]
    refine congrArg₂ List.cons rfl ?_
    refine List.map_congr_left fun l _ => ?_
    show xs.getD (0 + l) d = (x :: xs).getD (0 + Nat.succ l) d
    have e : 0 + Nat.succ l = (0 + l) + 1 := by omega
    rw [e, List.getD_cons_succ]
  | x :: xs, a + 1, b, h => by
    have h' : a + b ≤ xs.length := by simp at h; omega
    rw [List.drop_succ_cons, drop_take_eq_map_range d xs a b h']
    refine List.map_congr_left fun l _ => ?_
    have e : a + 1 + l = (a + l) + 1 := by omega
    rw [e, List.getD_cons_succ]

lemma allNums_map_vnum : ∀ (qs : List ℚ), allNums (qs.map Value.vnum) = some qs
  | [] => rfl
  | q :: qs => by
    show (allNums (qs.map Value.vnum)).map (fun xs => q :: xs) = _
    rw [allNums_map_vnum qs, Option.map_some']

/-- Claim C6 (amended): for an existing, fully observed numeric column, a
non-missing `Date` column and an integer window `w ≥ 2` (the `w = 1` case
is refuted by the counterexample: the rolling std is NaN everywhere and
every row is dropped), `detect_trends` outputs one row per position with
at least `w` prior-plus-current observations — earlier positions are
dropped, not null-filled — carrying that position's `Date` and value, the
window mean `MA`, and the trend label: the first output row is labelled
`"Downward"`, and row `k` is `"Upward"` iff `MA[k] > MA[k-1]`. -/
theorem detect_trends_spec (df : DataFrame) (column : String) (i di w : ℕ)
    (hi : colIdx df column = some i) (hdi : colIdx df "Date" = some di)
    (hw : 2 ≤ w)
    (hdate : ∀ r ∈ df.rows, (r.getD di .vnull).isNull = false)
    (hval : ∀ r ∈ df.rows, ∃ q, r.getD i .vnull = Value.vnum q) :
    ∃ t, detect_trends df column w = some t ∧ t.cols = trendCols column ∧
      t.rows.length = df.rows.length + 1 - w ∧
      ∀ k, k < t.rows.length →
        (t.rows.getD k []).getD 0 .vnull =
          (df.rows.getD (k + (w - 1)) []).getD di .vnull ∧
        (t.rows.getD k []).getD 1 .vnull =
          (df.rows.getD (k + (w - 1)) []).getD i .vnull ∧
        (t.rows.getD k []).getD 2 .vnull = .vnum (maSpec df i w (k + (w - 1))) ∧
        (t.rows.getD k []).getD 4 .vnull = .vstr (trendLabelSpec df i w k) := by
  have hn : ∀ j, j < df.rows.length → df.rows.getD j [] ∈ df.rows := by
    intro j hj
    rw [List.getD_eq_getElem?_getD, List.getElem?_eq_getElem hj, Option.getD_some]
    exact List.getElem_mem hj
  -- the numeric view of the column
  have hvsmap : colByIdx df i =
      (df.rows.map (fun r => (toNum? (r.getD i .vnull)).getD 0)).map Value.vnum := by
    rw [colByIdx, List.map_map]
    refine List.map_congr_left fun r hr => ?_
    obtain ⟨q, hq⟩ := hval r hr
    rw [hq]
    show Value.vnum q = Value.vnum ((toNum? (r.getD i Value.vnull)).getD 0)
    rw [hq]
    rfl
  have hnums_len :
      (df.rows.map (fun r => (toNum? (r.getD i .vnull)).getD 0)).length =
        df.rows.length := List.length_map _ _
  have hnum_at : ∀ m, m < df.rows.length →
      (df.rows.map (fun r => (toNum? (r.getD i .vnull)).getD 0)).getD m 0 =
        valAt df i m := by
    intro m hm
    rw [List.getD_eq_getElem?_getD, List.getElem?_map,
      List.getElem?_eq_getElem hm, Option.map_some', Option.getD_some, valAt]
    have hrm : df.rows.getD m [] = df.rows[m] := by
      rw [List.getD_eq_getElem?_getD, List.getElem?_eq_getElem hm, Option.getD_some]
    rw [hrm]
  -- the full rolling window at position j, as the claim's list of values
  have hwin : ∀ j, j < df.rows.length → w ≤ j + 1 →
      allNums (windowVals (colByIdx df i) w j) =
        some ((List.range w).map (fun l => valAt df i (j + 1 - w + l))) := by
    intro j hj hwj
    rw [windowVals, hvsmap, ← List.map_drop, ← List.map_take,
      drop_take_eq_map_range (0 : ℚ) _ (j + 1 - w) w (by rw [hnums_len]; omega),
      allNums_map_vnum]
    refine congrArg some (List.map_congr_left fun l hl => ?_)
    rw [List.mem_range] at hl
    exact hnum_at (j + 1 - w + l) (by omega)
  have hlen_win : ∀ j, ((List.range w).map
      (fun l => valAt df i (j + 1 - w + l))).length = w := by
    intro j
    rw [List.length_map, List.length_range]
  have hmean : ∀ j, j < df.rows.length → w ≤ j + 1 →
      rollingMean (colByIdx df i) w j = some (maSpec df i w j) := by
    intro j hj hwj
    unfold rollingMean
    rw [if_pos ⟨by omega, hwj⟩, hwin j hj hwj]
    show (if ((List.range w).map (fun l => valAt df i (j + 1 - w + l))).length = w
      then some (((List.range w).map (fun l => valAt df i (j + 1 - w + l))).sum / (w : ℚ))
      else none) = some (maSpec df i w j)
    rw [if_pos (hlen_win j)]
    rfl
  have hvar : ∀ j, j < df.rows.length → w ≤ j + 1 →
      rollingVar (colByIdx df i) w j =
        some (centralSum ((List.range w).map
          (fun l => valAt df i (j + 1 - w + l))) 2 / ((w : ℚ) - 1)) := by
    intro j hj hwj
    unfold rollingVar
    rw [if_pos ⟨hw, hwj⟩, hwin j hj hwj]
    show (if ((List.range w).map (fun l => valAt df i (j + 1 - w + l))).length = w
      then some (centralSum ((List.range w).map
        (fun l => valAt df i (j + 1 - w + l))) 2 / ((w : ℚ) - 1))
      else none) = _
    rw [if_pos (hlen_win j)]
  have hmean_none : ∀ j, ¬ (w ≤ j + 1) → rollingMean (colByIdx df i) w j = none := by
    intro j hwj
    unfold rollingMean
    rw [if_neg (fun hc => hwj hc.2)]
  -- the surviving rows
  have hrows : trendRows df i di w =
      (List.range (df.rows.length - (w - 1))).map (fun k =>
        [(df.rows.getD (k + (w - 1)) []).getD di .vnull,
         (df.rows.getD (k + (w - 1)) []).getD i .vnull,
         Value.vnum (maSpec df i w (k + (w - 1))),
         Value.vnum (centralSum ((List.range w).map
           (fun l => valAt df i (k + (w - 1) + 1 - w + l))) 2 / ((w : ℚ) - 1)),
         Value.vstr (trendLabel (colByIdx df i) w (k + (w - 1)))]) := by
    unfold trendRows
    rw [List.filterMap_congr (g := fun j => if w - 1 ≤ j then
        some [(df.rows.getD j []).getD di .vnull,
          (df.rows.getD j []).getD i .vnull,
          Value.vnum (maSpec df i w j),
          Value.vnum (centralSum ((List.range w).map
            (fun l => valAt df i (j + 1 - w + l))) 2 / ((w : ℚ) - 1)),
          Value.vstr (trendLabel (colByIdx df i) w j)] else none) ?_]
    · exact filterMap_range_threshold _ df.rows.length (w - 1)
    · intro j hj
      rw [List.mem_range] at hj
      by_cases hwj : w - 1 ≤ j
      · have hwj1 : w ≤ j + 1 := by omega
        obtain ⟨q, hq⟩ := hval _ (hn j hj)
        simp only [hmean j hj hwj1, hvar j hj hwj1, hq, hdate _ (hn j hj)]
        simp [Value.isNull, hwj]
      · cases hv : rollingVar (colByIdx df i) w j <;>
          simp [hmean_none j (by omega), hv, hwj]
  -- the trend labels agree with the claim's rule
  have hlabel : ∀ k, k < df.rows.length - (w - 1) →
      trendLabel (colByIdx df i) w (k + (w - 1)) = trendLabelSpec df i w k := by
    intro k hk
    unfold trendLabel trendLabelSpec
    cases k with
    | zero =>
      have hj : 0 + (w - 1) = w - 1 := by omega
      rw [hj, hmean (w - 1) (by omega) (by omega)]
      rw [if_neg (by omega : ¬ (w - 1 = 0))]
      rw [hmean_none (w - 1 - 1) (by omega)]
      rw [if_pos rfl]
    | succ k' =>
      have hj1 : k' + 1 + (w - 1) = k' + w := by omega
      rw [hj1, hmean (k' + w) (by omega) (by omega)]
      rw [if_neg (by omega : ¬ (k' + w = 0))]
      have hj2 : k' + w - 1 = k' + (w - 1) := by omega
      rw [hj2, hmean (k' + (w - 1)) (by omega) (by omega)]
      rw [if_neg (by omega : ¬ (k' + 1 = 0))]
      have hj3 : k' + 1 + w - 1 = k' + w := by omega
      have hj4 : k' + 1 + w - 2 = k' + (w - 1) := by omega
      rw [hj3, hj4]
  refine ⟨⟨trendCols column, trendRows df i di w⟩, ?_, rfl, ?_, ?_⟩
  · unfold detect_trends
    rw [hi]
    show (if w = 0 then none
      else (match colIdx df "Date" with
        | none => none
        | some di2 => some ⟨trendCols column, trendRows df i di2 w⟩ :
          Option DataFrame)) = _
    rw [if_neg (by omega : ¬ w = 0), hdi]
  · show (trendRows df i di w).length = df.rows.length + 1 - w
    rw [hrows, List.length_map, List.length_range]
    omega
  · intro k hk
    have hk' : k < df.rows.length - (w - 1) := by
      have hlen : (trendRows df i di w).length = df.rows.length - (w - 1) := by
        rw [hrows, List.length_map, List.length_range]
      exact hlen ▸ hk
    have hgd : (trendRows df i di w).getD k [] =
        [(df.rows.getD (k + (w - 1)) []).getD di .vnull,
         (df.rows.getD (k + (w - 1)) []).getD i .vnull,
         Value.vnum (maSpec df i w (k + (w - 1))),
         Value.vnum (centralSum ((List.range w).map
           (fun l => valAt df i (k + (w - 1) + 1 - w + l))) 2 / ((w : ℚ) - 1)),
         Value.vstr (trendLabel (colByIdx df i) w (k + (w - 1)))] := by
      rw [hrows]
      exact getD_map_range _ [] _ k hk'
    show ((trendRows df i di w).getD k []).getD 0 .vnull = _ ∧
      ((trendRows df i di w).getD k []).getD 1 .vnull = _ ∧
      ((trendRows df i di w).getD k []).getD 2 .vnull = _ ∧
      ((trendRows df i di w).getD k []).getD 4 .vnull = _
    rw [hgd]
    refine ⟨rfl, rfl, rfl, ?_⟩
    show Value.vstr (trendLabel (colByIdx df i) w (k + (w - 1))) =
      Value.vstr (trendLabelSpec df i w k)
    rw [hlabel k hk']

/-- Claim C6 (amended) witness: the spec's example `[1,2,3,4,5]` with
window 3 yields three rows (positions 2, 3, 4), the first labelled
`"Downward"` and the later ones by the consecutive-MA comparison. -/
theorem detect_trends_spec_witness :
    ∃ t, detect_trends dfFive "x" 3 = some t ∧ t.cols = trendCols "x" ∧
      t.rows.length = dfFive.rows.length + 1 - 3 ∧
      ∀ k, k < t.rows.length →
        (t.rows.getD k []).getD 0 .vnull =
          (dfFive.rows.getD (k + (3 - 1)) []).getD 0 .vnull ∧
        (t.rows.getD k []).getD 1 .vnull =
          (dfFive.rows.getD (k + (3 - 1)) []).getD 1 .vnull ∧
        (t.rows.getD k []).getD 2 .vnull = .vnum (maSpec dfFive 1 3 (k + (3 - 1))) ∧
        (t.rows.getD k []).getD 4 .vnull = .vstr (trendLabelSpec dfFive 1 3 k) :=
  detect_trends_spec dfFive "x" 1 0 3 (by decide) (by decide) (by omega)
    (by decide)
    (by
      intro r hr
      simp only [dfFive, List.mem_cons, List.not_mem_nil, or_false] at hr
      rcases hr with rfl | rfl | rfl | rfl | rfl <;> exact ⟨_, rfl⟩)

end DQ
